import Mathlib

/-!
# Verification of the `openme` daemon core

A shallow embedding, over `List Char`, of the canonical daemon core of the
`openme` repository (`daemon/validators.py` and `daemon/openmed.py`), together
with theorems settling the specification claims about it.

Python strings are modelled as `List Char` (sequences of code points).  The
character classes of the Python `re` module — `\d` (every Unicode decimal
digit, category Nd) and `\w` (Unicode word characters), consulted by the
IPv4 regex and its `\b` boundaries — are external collaborator data, like
the filesystem: the regex matcher is parametric in the two classes, and the
validator characterization is proved for every class semantics satisfying
the facts true of Python's (`admissibleClasses`).  The daemon pipeline
instantiates the matcher at the ASCII fragments of the classes, which is
exact for the all-ASCII wire protocol it validates.  `str.lower()` and
`str.strip()` are modelled by their ASCII meaning.
-/

namespace Openme

/-- Equality of `Except` values is decidable componentwise. -/
instance exceptDecEq {ε α : Type} [DecidableEq ε] [DecidableEq α] :
    DecidableEq (Except ε α)
  | .error e, .error f =>
    if h : e = f then .isTrue (by rw [h]) else .isFalse (by simp [h])
  | .error _, .ok _ => .isFalse (by simp)
  | .ok _, .error _ => .isFalse (by simp)
  | .ok a, .ok b =>
    if h : a = b then .isTrue (by rw [h]) else .isFalse (by simp [h])

/-- Test `lo <= c <= hi` as a boolean on characters (a regex character range). -/
def charBetween (lo hi c : Char) : Bool := decide (lo ≤ c ∧ c ≤ hi)

/-- The ASCII fragment of regex `\d`.  Python's `\d` matches every Unicode
decimal digit (category Nd); its full extent is a parameter `dig` below, and
the admissibility facts force it to contain this fragment. -/
def asciiDigit (c : Char) : Bool := charBetween '0' '9' c

/-- The ASCII fragment of regex `\w` (letter, digit or underscore).
Python's `\w`, consulted by the word boundary `\b`, is Unicode-wide; its
full extent is a parameter `w` below. -/
def asciiWord (c : Char) : Bool :=
  charBetween 'a' 'z' c || charBetween 'A' 'Z' c || charBetween '0' '9' c || c == '_'

/-- Does the first character of the list satisfy `p`?  (`false` for the
empty list: a word boundary at the end of input only needs the previous
character to be a word character.) -/
def headSat (p : Char → Bool) : List Char → Bool
  | [] => false
  | c :: _ => p c

/-!
## The IPv4 validator of `validators.py`

`is_valid_ip4_address` is `bool(re.match(ip_regex, ip_address))` for

    ip_regex = r'^((25[0-5]|(2[0-4]|1\d|[1-9]|)\d)\.?\b){4}$'

We embed the regex as a nondeterministic matcher returning, for each
sub-pattern, the list of possible remaining inputs.  Python's `re` backtracks
through every alternative, so the whole pattern matches iff some choice of
remainders succeeds; `List.any` over the collected remainders captures this
exactly.  Each alternative of the octet group is one function below; `dig`
is the semantics of `\d` and `w` that of `\w`. -/

/-- Remainders after `25[0-5]` (all literal characters). -/
def alt25x : List Char → List (List Char)
  | a :: b :: c :: rest =>
      if a == '2' && b == '5' && charBetween '0' '5' c then [rest] else []
  | _ => []

/-- Remainders after `2[0-4]\d` (the `2[0-4]` prefix alternative followed by
the group's closing `\d`). -/
def alt2xd (dig : Char → Bool) : List Char → List (List Char)
  | a :: b :: c :: rest =>
      if a == '2' && charBetween '0' '4' b && dig c then [rest] else []
  | _ => []

/-- Remainders after `1\d\d` (the `1\d` prefix alternative followed by
`\d`). -/
def alt1dd (dig : Char → Bool) : List Char → List (List Char)
  | a :: b :: c :: rest =>
      if a == '1' && dig b && dig c then [rest] else []
  | _ => []

/-- Remainders after `[1-9]\d`. -/
def altxd (dig : Char → Bool) : List Char → List (List Char)
  | a :: b :: rest =>
      if charBetween '1' '9' a && dig b then [rest] else []
  | _ => []

/-- Remainders after `\d` (the empty prefix alternative followed by `\d`). -/
def altd (dig : Char → Bool) : List Char → List (List Char)
  | a :: rest => if dig a then [rest] else []
  | _ => []

/-- Remainders after the octet alternation `(25[0-5]|(2[0-4]|1\d|[1-9]|)\d)`. -/
def octetRemainders (dig : Char → Bool) (cs : List Char) : List (List Char) :=
  alt25x cs ++ alt2xd dig cs ++ alt1dd dig cs ++ altxd dig cs ++ altd dig cs

/-- Remainders after `\.?\b`, entered right after an octet.  The octet always
ends in a `\d` digit — a word character — so when the optional dot is not
consumed, `\b` holds iff the next character is not a word character; when the
dot is consumed the character before the boundary is `'.'` (not a word
character), and `\b` holds iff the next character is one. -/
def dotBoundaryRemainders (w : Char → Bool) (r : List Char) : List (List Char) :=
  (if headSat w r then [] else [r]) ++
  (match r with
   | c :: r2 => if c == '.' && headSat w r2 then [r2] else []
   | [] => [])

/-- Remainders after one repetition of the group
`((25[0-5]|(2[0-4]|1\d|[1-9]|)\d)\.?\b)`. -/
def groupRemainders (dig w : Char → Bool) (cs : List Char) : List (List Char) :=
  (octetRemainders dig cs).flatMap (dotBoundaryRemainders w)

/-- Python's `$` outside MULTILINE mode: end of input, or just before a single
final newline. -/
def endAnchor (r : List Char) : Bool := decide (r = [] ∨ r = ['\n'])

/-- Evaluate `re.match(ip_regex, cs)` as a boolean, for class semantics
`dig` of `\d` and `w` of `\w`: the group four times (the `{4}` repetition),
then `$`.  (`re.match` anchors at the start; the leading `^` is redundant.) -/
def reIPv4Match (dig w : Char → Bool) (cs : List Char) : Bool :=
  ((((groupRemainders dig w cs).flatMap (groupRemainders dig w)).flatMap
      (groupRemainders dig w)).flatMap (groupRemainders dig w)).any endAnchor

/-- Source `validators.is_valid_ip4_address`, parametric in the `re` module's
class semantics (an external collaborator, like the filesystem in
`FsEnv`). -/
def is_valid_ip4_address (dig w : Char → Bool) (s : String) : Bool :=
  reIPv4Match dig w s.data

/-- The matcher at the ASCII class fragments: the instantiation the daemon
model uses.  The wire protocol and configuration are ASCII text, and on
all-ASCII inputs this instantiation agrees with Python's Unicode one. -/
def ipMatch (cs : List Char) : Bool := reIPv4Match asciiDigit asciiWord cs

/-!
## Spec-side IPv4 characterizations

`specOctetStr dig` lists exactly the octet strings the regex group can
consume: a single `\d` digit, or the literal-prefixed multi-digit forms
`[1-9]\d`, `1\d\d`, `2[0-4]\d`, `25[0-5]`.  At `dig := asciiDigit` these
are exactly the decimal representations of 0–255 with no leading zero
(except the literal `"0"`). -/

/-- Spec: one octet string under class semantics `dig`. -/
def specOctetStr (dig : Char → Bool) : List Char → Bool
  | [c] => dig c
  | [c, d] => charBetween '1' '9' c && dig d
  | [c, d, e] =>
      (c == '1' && dig d && dig e) ||
      (c == '2' && charBetween '0' '4' d && dig e) ||
      (c == '2' && d == '5' && charBetween '0' '5' e)
  | _ => false

/-- Spec: `n+1` dot-separated octets (each a maximal `dig`-run), with the
text after the last octet accepted by `tailOk`. -/
def specQuadAux (dig : Char → Bool) (tailOk : List Char → Bool) :
    Nat → List Char → Bool
  | 0, cs =>
      specOctetStr dig (cs.takeWhile dig) && tailOk (cs.dropWhile dig)
  | n + 1, cs =>
      specOctetStr dig (cs.takeWhile dig) &&
        match cs.dropWhile dig with
        | c :: r2 => c == '.' && specQuadAux dig tailOk n r2
        | [] => false

/-- The claim's reading of the validator: exactly four dot-separated decimal
octets (ASCII digits, values 0–255, no leading zero) and nothing else at
all. -/
def specStrictIPv4 (s : String) : Bool :=
  specQuadAux asciiDigit (fun r => decide (r = [])) 3 s.data

/-- The amended reading, for class semantics `dig`: four dot-separated
`dig`-octets, optionally followed by one final newline (the exception
Python's `$` semantics forces). -/
def specIPv4OptNl (dig : Char → Bool) (s : String) : Bool :=
  specQuadAux dig endAnchor 3 s.data

/-- The facts about Python's class semantics the characterization uses:
every ASCII digit is a `\d` digit, `\d` digits are word characters, and
`'.'` and newline are not word characters.  All four hold of Python's
Unicode `\d` (category Nd) and `\w`, and of their ASCII fragments. -/
def admissibleClasses (dig w : Char → Bool) : Prop :=
  (∀ c, asciiDigit c = true → dig c = true) ∧
  (∀ c, dig c = true → w c = true) ∧
  w '.' = false ∧ w '\n' = false

/-- The group repeated `n+1` times followed by the end anchor, as a single
recursion: used to reason about the `{4}` repetition one group at a time. -/
def groupsMatch (dig w : Char → Bool) : Nat → List Char → Bool
  | 0, cs => (groupRemainders dig w cs).any endAnchor
  | n + 1, cs => (groupRemainders dig w cs).any (groupsMatch dig w n)


/-!
## The remaining validators of `validators.py`

Ports are Python integers, modelled as `Int`.  `is_valid_protocol` lowercases
(ASCII) and tests membership in `['tcp', 'udp']`.
-/

/-- Source `validators.is_valid_port_number`: `0 < port_number <= 65535`. -/
def is_valid_port_number (port_number : Int) : Bool :=
  decide (0 < port_number ∧ port_number ≤ 65535)

/-- Source `validators.is_valid_protocol`: `protocol.lower() in ['tcp', 'udp']`. -/
def is_valid_protocol (protocol : List Char) : Bool :=
  ["tcp".data, "udp".data].contains (protocol.map Char.toLower)

/-!
## `openmed.py`: building and applying iptables commands

`generate_iptables_command` raises (modelled as `Except.error`) on an invalid
address or port, but *returns* a human-readable message string — as its
ordinary return value — for a protocol outside the literal (case-sensitive)
list `["tcp", "udp"]` or an action outside `["add", "remove"]`.
-/

/-- Source `openmed.generate_iptables_command`. -/
def generate_iptables_command (ip_address : List Char) (port : Int)
    (protocol action : List Char) : Except (List Char) (List Char) :=
  if !ipMatch ip_address then
    .error ("Invalid IP address: ".data ++ ip_address)
  else if !is_valid_port_number port then
    .error ("Invalid port number: ".data ++ (toString port).data)
  else if protocol ≠ "tcp".data ∧ protocol ≠ "udp".data then
    .ok "Invalid protocol. Supported protocols are tcp and udp.".data
  else if action ≠ "add".data ∧ action ≠ "remove".data then
    .ok "Invalid action. Supported actions are add and remove.".data
  else if action = "add".data then
    .ok ("iptables -A openme -p ".data ++ protocol ++ " --dport ".data ++
      (toString port).data ++ " -s ".data ++ ip_address ++ " -j ACCEPT".data)
  else
    .ok ("iptables -D openme -p ".data ++ protocol ++ " --dport ".data ++
      (toString port).data ++ " -s ".data ++ ip_address ++ " -j ACCEPT".data)

/-- One entry of the configured port list: a dict with keys `port` and
`protocol`. -/
structure PortInfo where
  port : Int
  protocol : List Char
deriving DecidableEq

/-- An observable side effect of `open_ports` / `close_ports`: either the
built command was only logged (`config.DEBUG` true), or it was handed to
`subprocess.run(command.split())`. -/
inductive Effect where
  | logged (cmd : List Char)
  | ran (cmd : List Char)
deriving DecidableEq

/-- Source `openmed.open_ports`: iterate the port list, build the `"add"` command
for each entry, and log it (DEBUG) or run it; a raised exception aborts the
loop and propagates.  Returns the effects performed, and the exception (if
any) that escaped. -/
def open_ports (dbg : Bool) (ip_address : List Char) (ports : List PortInfo) :
    List Effect × Option (List Char) :=
  match ports with
  | [] => ([], none)
  | p :: rest =>
    match generate_iptables_command ip_address p.port p.protocol "add".data with
    | .error e => ([], some e)
    | .ok command =>
      let eff := if dbg then Effect.logged command else Effect.ran command
      let res := open_ports dbg ip_address rest
      (eff :: res.1, res.2)

/-- Source `openmed.close_ports`: the same loop with the `"remove"` action. -/
def close_ports (dbg : Bool) (ip_address : List Char) (ports : List PortInfo) :
    List Effect × Option (List Char) :=
  match ports with
  | [] => ([], none)
  | p :: rest =>
    match generate_iptables_command ip_address p.port p.protocol "remove".data with
    | .error e => ([], some e)
    | .ok command =>
      let eff := if dbg then Effect.logged command else Effect.ran command
      let res := close_ports dbg ip_address rest
      (eff :: res.1, res.2)

/-!
## `openmed.py`: the connection handler
-/

/-- Python `str.strip()` whitespace (the ASCII whitespace characters). -/
def isSpaceChar (c : Char) : Bool :=
  c == ' ' || c == '\t' || c == '\n' || c == '\r' || c == '\x0b' || c == '\x0c'

/-- Python `str.strip()`: drop leading and trailing whitespace. -/
def pyStrip (cs : List Char) : List Char :=
  ((cs.dropWhile isSpaceChar).reverse.dropWhile isSpaceChar).reverse

/-- What one connection handler invocation did: the payloads passed to
`conn.sendall`, the firewall effects, whether the handler itself closed the
connection, and the exception (if any) that escaped it. -/
structure HandlerResult where
  sent : List (List Char)
  effects : List Effect
  closed : Bool
  exn : Option (List Char)
deriving DecidableEq

/-- Source `openmed.handle_client_connection`, for a connection from peer address
`peer` whose received payload decodes to `rawData`. -/
def handle_client_connection (dbg : Bool) (ports : List PortInfo)
    (peer rawData : List Char) : HandlerResult :=
  let data := pyStrip rawData
  if data = "OPEN ME".data then
    let r := open_ports dbg peer ports
    match r.2 with
    | some e => ⟨[], r.1, false, some e⟩
    | none => ⟨["OK".data], r.1, true, none⟩
  else if "OPEN ".data.isPrefixOf data then
    let ip_address := pyStrip (data.drop 5)
    if !ipMatch ip_address then
      ⟨["KO".data], [], true, none⟩
    else
      let r := open_ports dbg ip_address ports
      match r.2 with
      | some e => ⟨[], r.1, false, some e⟩
      | none => ⟨["OK".data], r.1, true, none⟩
  else if data = "MEOPEN".data then
    let r := close_ports dbg peer ports
    match r.2 with
    | some e => ⟨[], r.1, false, some e⟩
    | none => ⟨["OK".data], r.1, true, none⟩
  else if "MEOPEN ".data.isPrefixOf data then
    let ip_address := pyStrip (data.drop 7)
    if !ipMatch ip_address then
      ⟨["KO".data], [], true, none⟩
    else
      let r := close_ports dbg ip_address ports
      match r.2 with
      | some e => ⟨[], r.1, false, some e⟩
      | none => ⟨["OK".data], r.1, true, none⟩
  else
    ⟨["KO".data], [], true, none⟩

/-!
## Spec-side command grammar (spec §4.7 / data model `Command`)
-/

/-- The spec's `Command` data type. -/
inductive Command where
  | openForCaller
  | openForAddress (addr : List Char)
  | closeForCaller
  | closeForAddress (addr : List Char)
  | unknown (raw : List Char)
deriving DecidableEq

/-- The spec's command grammar applied to the stripped payload. -/
def parseCommand (data : List Char) : Command :=
  if data = "OPEN ME".data then .openForCaller
  else if "OPEN ".data.isPrefixOf data then .openForAddress (pyStrip (data.drop 5))
  else if data = "MEOPEN".data then .closeForCaller
  else if "MEOPEN ".data.isPrefixOf data then .closeForAddress (pyStrip (data.drop 7))
  else .unknown data

/-- The payload kinds the handler must reject with `KO` and no rule change:
an explicit address failing the validator, or an unknown command. -/
def rejectedPayload (data : List Char) : Bool :=
  match parseCommand data with
  | .openForAddress a => !ipMatch a
  | .closeForAddress a => !ipMatch a
  | .unknown _ => true
  | _ => false

/-- Spec-side: the rule-change request RuleCommandBuilder emits for adding the
allow-rule of `(ip, p.port, p.protocol)`. -/
def addRuleCmd (ip : List Char) (p : PortInfo) : List Char :=
  "iptables -A openme -p ".data ++ p.protocol ++ " --dport ".data ++
    (toString p.port).data ++ " -s ".data ++ ip ++ " -j ACCEPT".data

/-- Spec-side: the rule-change request for removing that allow-rule. -/
def removeRuleCmd (ip : List Char) (p : PortInfo) : List Char :=
  "iptables -D openme -p ".data ++ p.protocol ++ " --dport ".data ++
    (toString p.port).data ++ " -s ".data ++ ip ++ " -j ACCEPT".data

/-- How a built command is discharged: logged in DryRun (`DEBUG`), run as a
subprocess otherwise. -/
def applyEffect (dbg : Bool) (cmd : List Char) : Effect :=
  if dbg then .logged cmd else .ran cmd

/-- A port-list entry that respects the `Config` data-model invariant: a
valid port number and a protocol that is literally `"tcp"` or `"udp"`. -/
def entryValid (p : PortInfo) : Prop :=
  is_valid_port_number p.port = true ∧
    (p.protocol = "tcp".data ∨ p.protocol = "udp".data)

instance (p : PortInfo) : Decidable (entryValid p) := by
  unfold entryValid
  infer_instance

/-- The payloads the handler accepts for dispatch: one of the four command
forms, with a validator-accepted address where one is given. -/
def commandAccepted (data : List Char) : Bool :=
  match parseCommand data with
  | .openForCaller => true
  | .closeForCaller => true
  | .openForAddress a => ipMatch a
  | .closeForAddress a => ipMatch a
  | .unknown _ => false

/-!
## `validators.py`: configuration validation

The certificate/key checks delegate to the filesystem and a PEM parser
(external collaborators); `FsEnv` abstracts them as predicates on paths.
Field presence (`hasattr`) is modelled with `Option`.  Error values name the
exception class raised and the offending data; the human-readable message
strings are not tracked.
-/

/-- The filesystem / PEM-parser collaborators of `validate_cert_file` and
`validate_key_file`. -/
structure FsEnv where
  pathExists : List Char → Bool
  certParses : List Char → Bool
  keyParses : List Char → Bool

/-- The exception raised by `validate_config` and its helpers, tagged with
the offending field data. -/
inductive ConfigError where
  | invalidBindAddress
  | invalidListeningPort
  | invalidPortNumber (port : Int)
  | invalidProtocol (protocol : List Char)
  | invalidCertificate (path : List Char)
  | invalidKey (path : List Char)
deriving DecidableEq

/-- The merged runtime configuration as `validate_config` sees it
(`hasattr` on each field modelled by `Option`); `DEBUG` is carried separately
into the rule-application functions. -/
structure PyConfig where
  BIND_ADDRESS : Option (List Char)
  LISTENING_PORT : Option Int
  PORTS : Option (List PortInfo)
  CERT_FILE : Option (List Char)
  KEY_FILE : Option (List Char)
  CA_CERT_FILE : Option (List Char)

/-- Source `validators.validate_ports`: check each entry's port then protocol,
raising on the first bad one. -/
def validate_ports : List PortInfo → Except ConfigError Bool
  | [] => .ok true
  | p :: rest =>
    if !is_valid_port_number p.port then .error (.invalidPortNumber p.port)
    else if !is_valid_protocol p.protocol then .error (.invalidProtocol p.protocol)
    else validate_ports rest

/-- Source `validators.validate_cert_file`: the file must exist and parse as a PEM
certificate; both failures surface as `InvalidCertificateError`. -/
def validate_cert_file (env : FsEnv) (cert_file : List Char) : Except ConfigError Bool :=
  if env.pathExists cert_file then
    if env.certParses cert_file then .ok true
    else .error (.invalidCertificate cert_file)
  else .error (.invalidCertificate cert_file)

/-- Source `validators.validate_key_file`: the file must exist and parse as a PEM
private key; both failures surface as `InvalidKeyError`. -/
def validate_key_file (env : FsEnv) (key_file : List Char) : Except ConfigError Bool :=
  if env.pathExists key_file then
    if env.keyParses key_file then .ok true
    else .error (.invalidKey key_file)
  else .error (.invalidKey key_file)

/-- Condition `hasattr(config, 'BIND_ADDRESS') and not is_valid_ip4_address(...)`. -/
def bindAddressBad (c : PyConfig) : Bool :=
  match c.BIND_ADDRESS with
  | some a => !ipMatch a
  | none => false

/-- Condition `hasattr(config, 'LISTENING_PORT') and not is_valid_port_number(...)`. -/
def listeningPortBad (c : PyConfig) : Bool :=
  match c.LISTENING_PORT with
  | some p => !is_valid_port_number p
  | none => false

/-- The `hasattr`-guarded `validate_ports(config.PORTS)` call. -/
def portsResult (c : PyConfig) : Except ConfigError Bool :=
  match c.PORTS with
  | some ps => validate_ports ps
  | none => .ok true

/-- The `hasattr`-guarded `validate_cert_file(config.CERT_FILE)` call. -/
def certResult (env : FsEnv) (c : PyConfig) : Except ConfigError Bool :=
  match c.CERT_FILE with
  | some f => validate_cert_file env f
  | none => .ok true

/-- The `hasattr`-guarded `validate_key_file(config.KEY_FILE)` call. -/
def keyResult (env : FsEnv) (c : PyConfig) : Except ConfigError Bool :=
  match c.KEY_FILE with
  | some f => validate_key_file env f
  | none => .ok true

/-- The `hasattr`-guarded `validate_cert_file(config.CA_CERT_FILE)` call. -/
def caCertResult (env : FsEnv) (c : PyConfig) : Except ConfigError Bool :=
  match c.CA_CERT_FILE with
  | some f => validate_cert_file env f
  | none => .ok true

/-- Source `validators.validate_config`: the sequential `hasattr`-guarded checks, in
source order, raising at the first failure. -/
def validate_config (env : FsEnv) (c : PyConfig) : Except ConfigError Unit :=
  if bindAddressBad c then .error .invalidBindAddress
  else if listeningPortBad c then .error .invalidListeningPort
  else
    match portsResult c with
    | .error e => .error e
    | .ok _ =>
      match certResult env c with
      | .error e => .error e
      | .ok _ =>
        match keyResult env c with
        | .error e => .error e
        | .ok _ =>
          match caCertResult env c with
          | .error e => .error e
          | .ok _ => .ok ()

/-- Spec-side: the result of one named check, `none` when the field is
absent or passes. -/
def bindAddressCheck (c : PyConfig) : Option ConfigError :=
  match c.BIND_ADDRESS with
  | some a => if ipMatch a then none else some .invalidBindAddress
  | none => none

def listeningPortCheck (c : PyConfig) : Option ConfigError :=
  match c.LISTENING_PORT with
  | some p => if is_valid_port_number p then none else some .invalidListeningPort
  | none => none

def portsCheck (c : PyConfig) : Option ConfigError :=
  match c.PORTS with
  | some ps => match validate_ports ps with
               | .error e => some e
               | .ok _ => none
  | none => none

def certFileCheck (env : FsEnv) (c : PyConfig) : Option ConfigError :=
  match c.CERT_FILE with
  | some f => match validate_cert_file env f with
              | .error e => some e
              | .ok _ => none
  | none => none

def keyFileCheck (env : FsEnv) (c : PyConfig) : Option ConfigError :=
  match c.KEY_FILE with
  | some f => match validate_key_file env f with
              | .error e => some e
              | .ok _ => none
  | none => none

def caCertFileCheck (env : FsEnv) (c : PyConfig) : Option ConfigError :=
  match c.CA_CERT_FILE with
  | some f => match validate_cert_file env f with
              | .error e => some e
              | .ok _ => none
  | none => none

/-- Spec-side: the ordered list of configuration checks, spec §4.3 order. -/
def configChecks (env : FsEnv) (c : PyConfig) : List (Option ConfigError) :=
  [bindAddressCheck c, listeningPortCheck c, portsCheck c,
   certFileCheck env c, keyFileCheck env c, caCertFileCheck env c]

/-- Spec-side: the first failure of an ordered check list. -/
def firstFailure : List (Option ConfigError) → Option ConfigError
  | [] => none
  | some e :: _ => some e
  | none :: rest => firstFailure rest

/-- Spec-side: fail-fast validation raises the first failing check's error. -/
def ofFirstFailure (o : Option ConfigError) : Except ConfigError Unit :=
  match o with
  | some e => .error e
  | none => .ok ()

/-- What `main()` does after loading the config file: a validation exception
is caught and the process exits with status 1; otherwise `start_listening`
runs. -/
inductive StartupOutcome where
  | exitedWithError
  | listening
deriving DecidableEq

/-- Source `openmed.main`, from config merge to the bind: `validate_config` runs
before `start_listening`, and any exception it raises leads to `exit(1)`. -/
def mainStartup (env : FsEnv) (c : PyConfig) : StartupOutcome :=
  match validate_config env c with
  | .error _ => .exitedWithError
  | .ok _ => .listening

/-!
## `openmed.py`: the accept loop

One loop iteration observes one "connection event": `accept()` raising
`ssl.SSLError` (a failed TLS handshake), `accept()` raising some other
exception, or a completed accept with a peer address and a payload.  The
loop body's `try/except` blocks are modelled faithfully: an exception
escaping the body (`Except.error`) would terminate the `while True` loop.
-/

inductive ConnEvent where
  | handshakeFailure (msg : List Char)
  | acceptError (msg : List Char)
  | accepted (peer raw : List Char)

/-- The outcome of one loop iteration: the handler result (for accepted
connections), and whether the accepted connection ended up closed. -/
structure LoopOutcome where
  handled : Option HandlerResult
  connClosed : Bool
deriving DecidableEq

/-- One iteration of the `while True` body of `start_listening`.  A failed
`accept()` is logged and the loop continues; an exception escaping
`handle_client_connection` is caught, logged, and the connection closed by
the `conn.close()` in the handler (normal paths) or in the catch-all. -/
def loopBody (dbg : Bool) (ports : List PortInfo) : ConnEvent → Except (List Char) LoopOutcome
  | .handshakeFailure _ => .ok ⟨none, false⟩
  | .acceptError _ => .ok ⟨none, false⟩
  | .accepted peer raw =>
    let r := handle_client_connection dbg ports peer raw
    match r.exn with
    | none => .ok ⟨some r, r.closed⟩
    | some _ => .ok ⟨some r, true⟩

/-- Source `openmed.start_listening` over a finite prefix of the incoming connection
events: processes events until an uncaught exception (which would kill the
loop) occurs. -/
def start_listening (dbg : Bool) (ports : List PortInfo) :
    List ConnEvent → List LoopOutcome
  | [] => []
  | e :: rest =>
    match loopBody dbg ports e with
    | .error _ => []
    | .ok out => out :: start_listening dbg ports rest

/-!
## Rule-application outcomes

The daemon runs `subprocess.run(command.split())` and discards the returned
`CompletedProcess`; the external tool's exit statuses are an environment
`exitStatus` mapping each command to its exit code.  An `open`/`close`
operation fully succeeded iff every command it actually ran exited 0.
-/

/-- Did every rule application in the trace succeed under the given exit
statuses?  (Logged commands are dry-run: always counted as success.) -/
def ruleOutcomesOK (exitStatus : List Char → Int) (effs : List Effect) : Bool :=
  effs.all fun e =>
    match e with
    | .ran cmd => exitStatus cmd == 0
    | .logged _ => true

/-- Does an effect invoke a subprocess? -/
def invokesSubprocess : Effect → Bool
  | .ran _ => true
  | .logged _ => false

/-!
## Characterization of the regex matcher

The lemmas below identify the remainders produced by each sub-pattern and
culminate in `reIPv4_eq_specQuad`: for every admissible class semantics, the
regex accepts exactly the dotted quads of `\d`-octets followed by
`endAnchor` text (nothing, or one final newline).
-/

/-- Two booleans are equal when they are equiconvertible to `true`. -/
theorem bool_eq_of_iff {a b : Bool} (h : a = true ↔ b = true) : a = b := by
  cases a <;> cases b <;> simp_all

theorem any_flatMap {α β : Type} (l : List α) (f : α → List β) (p : β → Bool) :
    (l.flatMap f).any p = l.any fun a => (f a).any p := by
  induction l with
  | nil => rfl
  | cons a l ih => simp [List.flatMap_cons, List.any_append, ih]

theorem charBetween_mono {lo hi lo' hi' c : Char} (h : charBetween lo hi c = true)
    (hlo : lo' ≤ lo) (hhi : hi ≤ hi') : charBetween lo' hi' c = true := by
  simp only [charBetween, decide_eq_true_eq] at h ⊢
  exact ⟨le_trans hlo h.1, le_trans h.2 hhi⟩

theorem asciiDigit_of_19 {c : Char} (h : charBetween '1' '9' c = true) :
    asciiDigit c = true :=
  charBetween_mono h (by decide) (by decide)

theorem asciiDigit_of_04 {c : Char} (h : charBetween '0' '4' c = true) :
    asciiDigit c = true :=
  charBetween_mono h (by decide) (by decide)

theorem asciiDigit_of_05 {c : Char} (h : charBetween '0' '5' c = true) :
    asciiDigit c = true :=
  charBetween_mono h (by decide) (by decide)

theorem asciiWord_of_digit {c : Char} (h : asciiDigit c = true) :
    asciiWord c = true := by
  have hd : charBetween '0' '9' c = true := h
  simp [asciiWord, hd]

/-- The ASCII class fragments are themselves an admissible semantics. -/
theorem ascii_classes_admissible : admissibleClasses asciiDigit asciiWord :=
  ⟨fun _ h => h, fun _ h => asciiWord_of_digit h, by decide, by decide⟩

/-- Digits are word characters, lifted to list heads. -/
theorem headSat_w_of_dig {dig w : Char → Bool}
    (hsub : ∀ c, dig c = true → w c = true) {r : List Char}
    (h : headSat dig r = true) : headSat w r = true := by
  cases r with
  | nil => simp [headSat] at h
  | cons c r1 => exact hsub c h

/-- Character `'.'` is not a `\d` digit (it is not even a word character). -/
theorem dig_dot_false {dig w : Char → Bool}
    (hsub : ∀ c, dig c = true → w c = true) (hdot : w '.' = false) :
    dig '.' = false := by
  cases h : dig '.'
  · rfl
  · rw [hsub _ h] at hdot
    exact Bool.noConfusion hdot

/-- Newline is not a `\d` digit. -/
theorem dig_nl_false {dig w : Char → Bool}
    (hsub : ∀ c, dig c = true → w c = true) (hnl : w '\n' = false) :
    dig '\n' = false := by
  cases h : dig '\n'
  · rfl
  · rw [hsub _ h] at hnl
    exact Bool.noConfusion hnl

/-- Every string listed by `specOctetStr` is a nonempty string of digits. -/
theorem specOctetStr_digits {dig : Char → Bool}
    (hdig : ∀ c, asciiDigit c = true → dig c = true) {o : List Char}
    (h : specOctetStr dig o = true) :
    o ≠ [] ∧ ∀ c ∈ o, dig c = true := by
  match o with
  | [c] =>
    have hd : dig c = true := h
    refine ⟨by simp, ?_⟩
    intro x hx
    simp only [List.mem_singleton] at hx
    subst hx
    exact hd
  | [c, d] =>
    simp only [specOctetStr, Bool.and_eq_true] at h
    refine ⟨by simp, ?_⟩
    intro x hx
    simp only [List.mem_cons, List.not_mem_nil, or_false] at hx
    rcases hx with rfl | rfl
    · exact hdig _ (asciiDigit_of_19 h.1)
    · exact h.2
  | [c, d, e] =>
    simp only [specOctetStr, Bool.or_eq_true, Bool.and_eq_true, beq_iff_eq] at h
    refine ⟨by simp, ?_⟩
    intro x hx
    simp only [List.mem_cons, List.not_mem_nil, or_false] at hx
    rcases h with (⟨⟨rfl, hd⟩, he⟩ | ⟨⟨rfl, hd⟩, he⟩) | ⟨⟨rfl, rfl⟩, he⟩ <;>
      rcases hx with rfl | rfl | rfl <;>
      first
        | exact hdig _ (by decide)
        | exact hd
        | exact he
        | exact hdig _ (asciiDigit_of_04 hd)
        | exact hdig _ (asciiDigit_of_05 he)
  | [] => simp [specOctetStr] at h
  | _ :: _ :: _ :: _ :: _ => simp [specOctetStr] at h

/-- Soundness of the octet alternation: every remainder comes from consuming
one of the octet strings of `specOctetStr`. -/
theorem mem_octetRemainders_sound {dig : Char → Bool} {cs r : List Char}
    (h : r ∈ octetRemainders dig cs) :
    ∃ o, specOctetStr dig o = true ∧ cs = o ++ r := by
  simp only [octetRemainders, List.mem_append] at h
  rcases h with ((((h | h) | h) | h) | h)
  · -- 25[0-5]
    match cs with
    | [] => exact absurd h (List.not_mem_nil r)
    | [a] => exact absurd h (List.not_mem_nil r)
    | [a, b] => exact absurd h (List.not_mem_nil r)
    | a :: b :: c :: rest =>
      have e : alt25x (a :: b :: c :: rest) =
          if a == '2' && b == '5' && charBetween '0' '5' c then [rest] else [] := rfl
      rw [e] at h
      by_cases hcond : (a == '2' && b == '5' && charBetween '0' '5' c) = true
      · rw [if_pos hcond] at h
        simp only [List.mem_singleton] at h
        subst h
        simp only [Bool.and_eq_true, beq_iff_eq] at hcond
        obtain ⟨⟨rfl, rfl⟩, hc⟩ := hcond
        exact ⟨['2', '5', c], hc, rfl⟩
      · rw [if_neg hcond] at h
        exact absurd h (List.not_mem_nil r)
  · -- 2[0-4]\d
    match cs with
    | [] => exact absurd h (List.not_mem_nil r)
    | [a] => exact absurd h (List.not_mem_nil r)
    | [a, b] => exact absurd h (List.not_mem_nil r)
    | a :: b :: c :: rest =>
      have e : alt2xd dig (a :: b :: c :: rest) =
          if a == '2' && charBetween '0' '4' b && dig c then [rest] else [] := rfl
      rw [e] at h
      by_cases hcond : (a == '2' && charBetween '0' '4' b && dig c) = true
      · rw [if_pos hcond] at h
        simp only [List.mem_singleton] at h
        subst h
        simp only [Bool.and_eq_true, beq_iff_eq] at hcond
        obtain ⟨⟨rfl, hb⟩, hc⟩ := hcond
        exact ⟨['2', b, c], by simp [specOctetStr, hb, hc], rfl⟩
      · rw [if_neg hcond] at h
        exact absurd h (List.not_mem_nil r)
  · -- 1\d\d
    match cs with
    | [] => exact absurd h (List.not_mem_nil r)
    | [a] => exact absurd h (List.not_mem_nil r)
    | [a, b] => exact absurd h (List.not_mem_nil r)
    | a :: b :: c :: rest =>
      have e : alt1dd dig (a :: b :: c :: rest) =
          if a == '1' && dig b && dig c then [rest] else [] := rfl
      rw [e] at h
      by_cases hcond : (a == '1' && dig b && dig c) = true
      · rw [if_pos hcond] at h
        simp only [List.mem_singleton] at h
        subst h
        simp only [Bool.and_eq_true, beq_iff_eq] at hcond
        obtain ⟨⟨rfl, hb⟩, hc⟩ := hcond
        exact ⟨['1', b, c], by simp [specOctetStr, hb, hc], rfl⟩
      · rw [if_neg hcond] at h
        exact absurd h (List.not_mem_nil r)
  · -- [1-9]\d
    match cs with
    | [] => exact absurd h (List.not_mem_nil r)
    | [a] => exact absurd h (List.not_mem_nil r)
    | a :: b :: rest =>
      have e : altxd dig (a :: b :: rest) =
          if charBetween '1' '9' a && dig b then [rest] else [] := rfl
      rw [e] at h
      by_cases hcond : (charBetween '1' '9' a && dig b) = true
      · rw [if_pos hcond] at h
        simp only [List.mem_singleton] at h
        subst h
        simp only [Bool.and_eq_true] at hcond
        exact ⟨[a, b], by simp [specOctetStr, hcond.1, hcond.2], rfl⟩
      · rw [if_neg hcond] at h
        exact absurd h (List.not_mem_nil r)
  · -- \d
    match cs with
    | [] => exact absurd h (List.not_mem_nil r)
    | a :: rest =>
      have e : altd dig (a :: rest) = if dig a then [rest] else [] := rfl
      rw [e] at h
      by_cases ha : dig a = true
      · rw [if_pos ha] at h
        simp only [List.mem_singleton] at h
        subst h
        exact ⟨[a], ha, rfl⟩
      · rw [if_neg ha] at h
        exact absurd h (List.not_mem_nil r)

/-- Completeness of the octet alternation: consuming any `specOctetStr`
string is one of the matcher's choices. -/
theorem mem_octetRemainders_complete {dig : Char → Bool} {o r : List Char}
    (h : specOctetStr dig o = true) :
    r ∈ octetRemainders dig (o ++ r) := by
  simp only [octetRemainders, List.mem_append]
  match o with
  | [c] =>
    have hd : dig c = true := h
    refine Or.inr ?_
    simp [altd, hd]
  | [c, d] =>
    simp only [specOctetStr, Bool.and_eq_true] at h
    refine Or.inl (Or.inr ?_)
    simp [altxd, h.1, h.2]
  | [c, d, e] =>
    simp only [specOctetStr, Bool.or_eq_true, Bool.and_eq_true, beq_iff_eq] at h
    rcases h with (⟨⟨rfl, hd⟩, he⟩ | ⟨⟨rfl, hd⟩, he⟩) | ⟨⟨rfl, rfl⟩, he⟩
    · refine Or.inl (Or.inl (Or.inr ?_))
      simp [alt1dd, hd, he]
    · refine Or.inl (Or.inl (Or.inl (Or.inr ?_)))
      simp [alt2xd, hd, he]
    · refine Or.inl (Or.inl (Or.inl (Or.inl ?_)))
      simp [alt25x, he]
  | [] => simp [specOctetStr] at h
  | _ :: _ :: _ :: _ :: _ => simp [specOctetStr] at h

/-- Any string the octet alternation matches on starts with a `\d` digit. -/
theorem headSat_dig_of_mem_octetRemainders {dig : Char → Bool}
    (hdig : ∀ c, asciiDigit c = true → dig c = true) {cs r : List Char}
    (h : r ∈ octetRemainders dig cs) : headSat dig cs = true := by
  obtain ⟨o, ho, rfl⟩ := mem_octetRemainders_sound h
  obtain ⟨hne, hd⟩ := specOctetStr_digits hdig ho
  match o, hne with
  | [], hne => exact absurd rfl hne
  | c :: o2, _ => exact hd c (by simp)

/-- The remainders of `\.?\b` after an octet: either the dot is not taken and
the next character must not be a word character, or the dot is taken and the
next character must be one. -/
theorem mem_dotBoundary {w : Char → Bool} (hdot : w '.' = false) {r r2 : List Char} :
    r2 ∈ dotBoundaryRemainders w r ↔
      (headSat w r = false ∧ r2 = r) ∨ (r = '.' :: r2 ∧ headSat w r2 = true) := by
  cases r with
  | nil =>
    have e : dotBoundaryRemainders w [] = [[]] := rfl
    rw [e]
    simp [headSat]
  | cons c r1 =>
    have e : dotBoundaryRemainders w (c :: r1) =
        (if headSat w (c :: r1) then [] else [c :: r1]) ++
        (if c == '.' && headSat w r1 then [r1] else []) := rfl
    rw [e]
    by_cases hw : headSat w (c :: r1) = true
    · rw [if_pos hw]
      by_cases hc : (c == '.' && headSat w r1) = true
      · simp only [Bool.and_eq_true, beq_iff_eq] at hc
        obtain ⟨rfl, -⟩ := hc
        rw [show headSat w ('.' :: r1) = w '.' from rfl, hdot] at hw
        exact absurd hw Bool.false_ne_true
      · rw [if_neg hc]
        simp only [List.nil_append, List.not_mem_nil, false_iff]
        rintro (⟨hfalse, -⟩ | ⟨heq, -⟩)
        · rw [hw] at hfalse
          exact Bool.noConfusion hfalse
        · obtain ⟨rfl, rfl⟩ := List.cons.inj heq
          rw [show headSat w ('.' :: r1) = w '.' from rfl, hdot] at hw
          exact Bool.noConfusion hw
    · simp only [Bool.not_eq_true] at hw
      rw [if_neg (by simp [hw])]
      by_cases hc : (c == '.' && headSat w r1) = true
      · rw [if_pos hc]
        simp only [Bool.and_eq_true, beq_iff_eq] at hc
        obtain ⟨rfl, hw2⟩ := hc
        simp only [List.cons_append, List.nil_append, List.mem_cons,
          List.mem_singleton, List.not_mem_nil, or_false]
        constructor
        · rintro (rfl | rfl)
          · exact Or.inl ⟨hw, rfl⟩
          · exact Or.inr ⟨rfl, hw2⟩
        · rintro (⟨-, rfl⟩ | ⟨heq, -⟩)
          · exact Or.inl rfl
          · obtain ⟨-, rfl⟩ := List.cons.inj heq
            exact Or.inr rfl
      · rw [if_neg hc]
        simp only [List.append_nil, List.mem_singleton]
        constructor
        · rintro rfl
          exact Or.inl ⟨hw, rfl⟩
        · rintro (⟨-, rfl⟩ | ⟨heq, hw2⟩)
          · rfl
          · obtain ⟨rfl, rfl⟩ := List.cons.inj heq
            exact absurd (by simp [hw2]) hc

/-- Splitting a digit run followed by a non-digit-headed tail. -/
theorem digits_split {dig : Char → Bool} {o r : List Char}
    (ho : ∀ c ∈ o, dig c = true) (hr : headSat dig r = false) :
    (o ++ r).takeWhile dig = o ∧ (o ++ r).dropWhile dig = r := by
  have htail : r.takeWhile dig = [] ∧ r.dropWhile dig = r := by
    cases r with
    | nil => simp
    | cons c r1 =>
      simp only [headSat] at hr
      simp [List.takeWhile_cons, List.dropWhile_cons, hr]
  constructor
  · rw [List.takeWhile_append_of_pos ho, htail.1, List.append_nil]
  · rw [List.dropWhile_append_of_pos ho, htail.2]

/-- A head that is not a word character is in particular not a digit. -/
theorem headSat_not_of_not_word {dig w : Char → Bool}
    (hsub : ∀ c, dig c = true → w c = true) {r : List Char}
    (hw : headSat w r = false) : headSat dig r = false := by
  cases hd : headSat dig r
  · rfl
  · rw [headSat_w_of_dig hsub hd] at hw
    exact Bool.noConfusion hw

theorem specQuadAux_headSat {dig : Char → Bool} {tailOk : List Char → Bool}
    {n : Nat} {cs : List Char} (h : specQuadAux dig tailOk n cs = true) :
    headSat dig cs = true := by
  have hoct : specOctetStr dig (cs.takeWhile dig) = true := by
    cases n with
    | zero =>
      simp only [specQuadAux, Bool.and_eq_true] at h
      exact h.1
    | succ m =>
      simp only [specQuadAux, Bool.and_eq_true] at h
      exact h.1
  cases cs with
  | nil => simp [specOctetStr] at hoct
  | cons c cs2 =>
    by_cases hc : dig c = true
    · exact hc
    · simp only [Bool.not_eq_true] at hc
      simp [List.takeWhile_cons, hc, specOctetStr] at hoct

theorem groupsMatch_headSat {dig w : Char → Bool}
    (hdig : ∀ c, asciiDigit c = true → dig c = true) {n : Nat} {cs : List Char}
    (h : groupsMatch dig w n cs = true) : headSat dig cs = true := by
  have hmem : ∃ r, r ∈ groupRemainders dig w cs := by
    cases n with
    | zero =>
      obtain ⟨r, hr, -⟩ := List.any_eq_true.mp h
      exact ⟨r, hr⟩
    | succ m =>
      obtain ⟨r, hr, -⟩ := List.any_eq_true.mp h
      exact ⟨r, hr⟩
  obtain ⟨r, hr⟩ := hmem
  simp only [groupRemainders] at hr
  obtain ⟨r0, hr0, -⟩ := List.mem_flatMap.mp hr
  exact headSat_dig_of_mem_octetRemainders hdig hr0

/-- The heart of the validator characterization: `n+1` regex groups followed
by `$` accept exactly `n+1` dot-separated octets followed by `endAnchor`
text, for every admissible class semantics. -/
theorem groupsMatch_eq_specQuad {dig w : Char → Bool}
    (h : admissibleClasses dig w) :
    ∀ n cs, groupsMatch dig w n cs = specQuadAux dig endAnchor n cs := by
  obtain ⟨hdig, hsub, hdot, hnl⟩ := h
  intro n
  induction n with
  | zero =>
    intro cs
    apply bool_eq_of_iff
    constructor
    · intro h0
      obtain ⟨r1, hr1, hend⟩ := List.any_eq_true.mp h0
      simp only [groupRemainders] at hr1
      obtain ⟨r0, hoct, hdb⟩ := List.mem_flatMap.mp hr1
      rcases (mem_dotBoundary hdot).mp hdb with ⟨hw, rfl⟩ | ⟨rfl, hw⟩
      · obtain ⟨o, hocts, rfl⟩ := mem_octetRemainders_sound hoct
        obtain ⟨ht, hdp⟩ := digits_split (specOctetStr_digits hdig hocts).2
          (headSat_not_of_not_word hsub hw)
        simp [specQuadAux, ht, hdp, hocts, hend]
      · simp only [endAnchor, decide_eq_true_eq] at hend
        rcases hend with rfl | rfl
        · exact Bool.noConfusion hw
        · rw [show headSat w ['\n'] = w '\n' from rfl, hnl] at hw
          exact Bool.noConfusion hw
    · intro h0
      simp only [specQuadAux, Bool.and_eq_true] at h0
      obtain ⟨hoct, hend⟩ := h0
      apply List.any_eq_true.mpr
      refine ⟨cs.dropWhile dig, ?_, hend⟩
      simp only [groupRemainders]
      apply List.mem_flatMap.mpr
      refine ⟨cs.dropWhile dig, ?_, ?_⟩
      · have hmem := mem_octetRemainders_complete
          (o := cs.takeWhile dig) (r := cs.dropWhile dig) hoct
        rwa [List.takeWhile_append_dropWhile] at hmem
      · apply (mem_dotBoundary hdot).mpr
        left
        refine ⟨?_, rfl⟩
        simp only [endAnchor, decide_eq_true_eq] at hend
        rcases hend with he | he <;> rw [he]
        · rfl
        · exact hnl
  | succ m ih =>
    intro cs
    apply bool_eq_of_iff
    constructor
    · intro h0
      obtain ⟨r1, hr1, hgm⟩ := List.any_eq_true.mp h0
      simp only [groupRemainders] at hr1
      obtain ⟨r0, hoct, hdb⟩ := List.mem_flatMap.mp hr1
      rcases (mem_dotBoundary hdot).mp hdb with ⟨hw, rfl⟩ | ⟨rfl, hw⟩
      · rw [headSat_w_of_dig hsub (groupsMatch_headSat hdig hgm)] at hw
        exact Bool.noConfusion hw
      · obtain ⟨o, hocts, rfl⟩ := mem_octetRemainders_sound hoct
        have hhd : headSat dig ('.' :: r1) = false := dig_dot_false hsub hdot
        obtain ⟨ht, hdp⟩ := digits_split (specOctetStr_digits hdig hocts).2 hhd
        rw [ih r1] at hgm
        simp [specQuadAux, ht, hdp, hocts, hgm]
    · intro h0
      simp only [specQuadAux, Bool.and_eq_true] at h0
      obtain ⟨hoct, hrest⟩ := h0
      rcases hd : cs.dropWhile dig with _ | ⟨c, r2⟩
      · rw [hd] at hrest
        exact Bool.noConfusion hrest
      · rw [hd] at hrest
        simp only [Bool.and_eq_true, beq_iff_eq] at hrest
        obtain ⟨rfl, hs⟩ := hrest
        have hsplit : cs.takeWhile dig ++ '.' :: r2 = cs := by
          rw [← hd, List.takeWhile_append_dropWhile]
        apply List.any_eq_true.mpr
        refine ⟨r2, ?_, ?_⟩
        · simp only [groupRemainders]
          apply List.mem_flatMap.mpr
          refine ⟨'.' :: r2, ?_, ?_⟩
          · have hmem := mem_octetRemainders_complete
              (o := cs.takeWhile dig) (r := '.' :: r2) hoct
            rwa [hsplit] at hmem
          · exact (mem_dotBoundary hdot).mpr
              (Or.inr ⟨rfl, headSat_w_of_dig hsub (specQuadAux_headSat hs)⟩)
        · rw [ih r2]
          exact hs

theorem reIPv4_eq_groupsMatch (dig w : Char → Bool) (cs : List Char) :
    reIPv4Match dig w cs = groupsMatch dig w 3 cs := by
  simp only [reIPv4Match, any_flatMap]
  rfl

/-- For every admissible class semantics — in particular Python's Unicode
`\d`/`\w` — the IPv4 regex accepts exactly four dot-separated `\d`-octets,
optionally followed by one final newline. -/
theorem reIPv4_eq_specQuad {dig w : Char → Bool} (h : admissibleClasses dig w)
    (cs : List Char) : reIPv4Match dig w cs = specQuadAux dig endAnchor 3 cs := by
  rw [reIPv4_eq_groupsMatch, groupsMatch_eq_specQuad h]

/-- The ASCII instantiation used by the daemon model has the corresponding
language, with octets exactly the decimal numbers 0-255 without leading
zeros. -/
theorem ipMatch_eq_specQuad (cs : List Char) :
    ipMatch cs = specQuadAux asciiDigit endAnchor 3 cs :=
  reIPv4_eq_specQuad ascii_classes_admissible cs

/-!
## The rule builder and the port loops
-/

/-- On a valid address, valid port and literal `"tcp"`/`"udp"` protocol, the
builder returns the add-rule invocation. -/
theorem generate_ok_add {ip : List Char} {port : Int} {proto : List Char}
    (hip : ipMatch ip = true) (hp : is_valid_port_number port = true)
    (hproto : proto = "tcp".data ∨ proto = "udp".data) :
    generate_iptables_command ip port proto "add".data =
      .ok (addRuleCmd ip ⟨port, proto⟩) := by
  rcases hproto with rfl | rfl <;>
    simp [generate_iptables_command, hip, hp, addRuleCmd]

/-- Same, for the remove-rule invocation. -/
theorem generate_ok_remove {ip : List Char} {port : Int} {proto : List Char}
    (hip : ipMatch ip = true) (hp : is_valid_port_number port = true)
    (hproto : proto = "tcp".data ∨ proto = "udp".data) :
    generate_iptables_command ip port proto "remove".data =
      .ok (removeRuleCmd ip ⟨port, proto⟩) := by
  rcases hproto with rfl | rfl <;>
    simp [generate_iptables_command, hip, hp, removeRuleCmd]

/-- On a valid address and a data-model-respecting port list, `open_ports`
performs exactly one add effect per entry, in order, and raises nothing. -/
theorem open_ports_trace {dbg : Bool} {ip : List Char} {ports : List PortInfo}
    (hip : ipMatch ip = true) (hv : ∀ p ∈ ports, entryValid p) :
    open_ports dbg ip ports =
      (ports.map fun p => applyEffect dbg (addRuleCmd ip p), none) := by
  induction ports with
  | nil => rfl
  | cons p rest ih =>
    obtain ⟨hp, hproto⟩ := hv p (by simp)
    have hgen := generate_ok_add hip hp hproto
    simp only [open_ports, hgen, ih fun q hq => hv q (by simp [hq]), List.map_cons,
      applyEffect]

/-- Same for `close_ports` and remove effects. -/
theorem close_ports_trace {dbg : Bool} {ip : List Char} {ports : List PortInfo}
    (hip : ipMatch ip = true) (hv : ∀ p ∈ ports, entryValid p) :
    close_ports dbg ip ports =
      (ports.map fun p => applyEffect dbg (removeRuleCmd ip p), none) := by
  induction ports with
  | nil => rfl
  | cons p rest ih =>
    obtain ⟨hp, hproto⟩ := hv p (by simp)
    have hgen := generate_ok_remove hip hp hproto
    simp only [close_ports, hgen, ih fun q hq => hv q (by simp [hq]), List.map_cons,
      applyEffect]

/-!
## Handler dispatch lemmas
-/

theorem open_prefix_isPrefix (addr : List Char) :
    "OPEN ".data.isPrefixOf ("OPEN ".data ++ addr) = true := by
  simp [List.isPrefixOf_iff_prefix]

theorem open_prefix_drop (addr : List Char) :
    ("OPEN ".data ++ addr).drop 5 = addr :=
  List.drop_left' (by rfl)

theorem meopen_prefix_isPrefix (addr : List Char) :
    "MEOPEN ".data.isPrefixOf ("MEOPEN ".data ++ addr) = true := by
  simp [List.isPrefixOf_iff_prefix]

theorem meopen_prefix_drop (addr : List Char) :
    ("MEOPEN ".data ++ addr).drop 7 = addr :=
  List.drop_left' (by rfl)

/-- A validator-accepted address is not the literal `"ME"`, so `OPEN <addr>`
is never the `OPEN ME` command. -/
theorem open_addr_ne_openme {addr : List Char} (hip : ipMatch addr = true) :
    "OPEN ".data ++ addr ≠ "OPEN ME".data := by
  intro heq
  have h2 : "OPEN ".data ++ addr = "OPEN ".data ++ "ME".data := by
    rw [heq]
    decide
  have : addr = "ME".data := List.append_cancel_left h2
  subst this
  exact absurd hip (by decide)

/-- Command `OPEN <addr>` with a validator-accepted address: one add-direction rule
effect per configured entry, targeting that address, response `OK`, and the
connection closed. -/
theorem handle_open_addr (dbg : Bool) (ports : List PortInfo) (peer raw addr : List Char)
    (hv : ∀ p ∈ ports, entryValid p) (hip : ipMatch addr = true)
    (hstrip : pyStrip raw = "OPEN ".data ++ addr) (haddr : pyStrip addr = addr) :
    handle_client_connection dbg ports peer raw =
      ⟨["OK".data], ports.map fun p => applyEffect dbg (addRuleCmd addr p), true, none⟩ := by
  unfold handle_client_connection
  rw [hstrip]
  rw [if_neg (open_addr_ne_openme hip), if_pos (open_prefix_isPrefix addr),
    open_prefix_drop, haddr, if_neg (by simp [hip]),
    open_ports_trace hip hv]

/-- Two lists with different head characters are different, whatever follows. -/
theorem cons_append_ne_cons {a b : Char} {l1 l2 l3 : List Char} (h : a ≠ b) :
    (a :: l1) ++ l2 ≠ b :: l3 := by
  intro heq
  rw [List.cons_append] at heq
  exact h (List.cons.inj heq).1

/-- Command `MEOPEN <addr>` analogue: one remove-direction rule effect per entry. -/
theorem handle_close_addr (dbg : Bool) (ports : List PortInfo) (peer raw addr : List Char)
    (hv : ∀ p ∈ ports, entryValid p) (hip : ipMatch addr = true)
    (hstrip : pyStrip raw = "MEOPEN ".data ++ addr) (haddr : pyStrip addr = addr) :
    handle_client_connection dbg ports peer raw =
      ⟨["OK".data], ports.map fun p => applyEffect dbg (removeRuleCmd addr p), true, none⟩ := by
  have h1 : "MEOPEN ".data ++ addr ≠ "OPEN ME".data :=
    cons_append_ne_cons (by decide)
  have h2 : ("OPEN ".data.isPrefixOf ("MEOPEN ".data ++ addr)) = false := rfl
  have h3 : "MEOPEN ".data ++ addr ≠ "MEOPEN".data := by
    intro heq
    have hlen := congrArg List.length heq
    rw [List.length_append] at hlen
    have h7 : ("MEOPEN ".data).length = 7 := rfl
    have h6 : ("MEOPEN".data).length = 6 := rfl
    rw [h7, h6] at hlen
    omega
  unfold handle_client_connection
  rw [hstrip]
  rw [if_neg h1, if_neg (by simp [h2]), if_neg h3,
    if_pos (meopen_prefix_isPrefix addr), meopen_prefix_drop, haddr,
    if_neg (by simp [hip]), close_ports_trace hip hv]

/-!
## Handler and listener invariants
-/

/-- Every handler invocation either closes the connection itself or lets an
exception escape (to the listener's catch-all). -/
theorem handle_closed_or_exn (dbg : Bool) (ports : List PortInfo) (peer raw : List Char) :
    (handle_client_connection dbg ports peer raw).closed = true ∨
      (handle_client_connection dbg ports peer raw).exn ≠ none := by
  unfold handle_client_connection
  by_cases h1 : pyStrip raw = "OPEN ME".data
  · rcases ho : (open_ports dbg peer ports).2 with _ | e <;> simp [h1, ho]
  · by_cases h2 : ("OPEN ".data.isPrefixOf (pyStrip raw)) = true
    · by_cases h3 : ipMatch (pyStrip ((pyStrip raw).drop 5)) = true
      · rcases ho : (open_ports dbg (pyStrip ((pyStrip raw).drop 5)) ports).2 with _ | e <;>
          simp [h1, h2, h3, ho]
      · simp only [Bool.not_eq_true] at h3
        simp [h1, h2, h3]
    · by_cases h4 : pyStrip raw = "MEOPEN".data
      · rcases ho : (close_ports dbg peer ports).2 with _ | e <;> simp [h1, h2, h4, ho]
      · by_cases h5 : ("MEOPEN ".data.isPrefixOf (pyStrip raw)) = true
        · by_cases h6 : ipMatch (pyStrip ((pyStrip raw).drop 7)) = true
          · rcases ho : (close_ports dbg (pyStrip ((pyStrip raw).drop 7)) ports).2 with _ | e <;>
              simp [h1, h2, h4, h5, h6, ho]
          · simp only [Bool.not_eq_true] at h6
            simp [h1, h2, h4, h5, h6]
        · simp [h1, h2, h4, h5]

/-!
## The claims
-/

/-- C9.  The accept loop never terminates because of a per-connection error:
every connection event in the incoming sequence is processed independently —
a failed handshake or accept is logged and skipped, an accepted connection is
handled and always ends up closed (by the handler or by the loop's
catch-all) — and no event stops the loop from processing the rest. -/
theorem C9_listener_resilience (dbg : Bool) (ports : List PortInfo)
    (events : List ConnEvent) :
    start_listening dbg ports events =
      events.map fun e =>
        match e with
        | .accepted peer raw =>
            ⟨some (handle_client_connection dbg ports peer raw), true⟩
        | _ => ⟨none, false⟩ := by
  induction events with
  | nil => rfl
  | cons e rest ih =>
    cases e with
    | handshakeFailure m => simp [start_listening, loopBody, ih]
    | acceptError m => simp [start_listening, loopBody, ih]
    | accepted peer raw =>
      rcases hx : (handle_client_connection dbg ports peer raw).exn with _ | ex
      · have hc : (handle_client_connection dbg ports peer raw).closed = true := by
          rcases handle_closed_or_exn dbg ports peer raw with hc | hne
          · exact hc
          · exact absurd hx hne
        simp [start_listening, loopBody, hx, hc, ih]
      · simp [start_listening, loopBody, hx, ih]

/-- C10.  `OPEN ME` and `MEOPEN` pass the peer's connecting address to rule
provisioning without validating it: for a peer address the validator rejects
(e.g. an IPv6 peer), the builder raises `Invalid IP address` on the first
configured entry, before any rule is applied; the exception escapes the
handler (nothing is sent, the handler does not close), and the listener's
catch-all closes the connection. -/
theorem C10_caller_address_unvalidated (dbg : Bool) (p : PortInfo)
    (rest : List PortInfo) (peer raw : List Char) (hpeer : ipMatch peer = false)
    (hraw : pyStrip raw = "OPEN ME".data ∨ pyStrip raw = "MEOPEN".data) :
    handle_client_connection dbg (p :: rest) peer raw =
      ⟨[], [], false, some ("Invalid IP address: ".data ++ peer)⟩ ∧
    loopBody dbg (p :: rest) (.accepted peer raw) =
      .ok ⟨some (handle_client_connection dbg (p :: rest) peer raw), true⟩ := by
  have hopen : open_ports dbg peer (p :: rest) =
      ([], some ("Invalid IP address: ".data ++ peer)) := by
    simp [open_ports, generate_iptables_command, hpeer]
  have hclose : close_ports dbg peer (p :: rest) =
      ([], some ("Invalid IP address: ".data ++ peer)) := by
    simp [close_ports, generate_iptables_command, hpeer]
  have hmain : handle_client_connection dbg (p :: rest) peer raw =
      ⟨[], [], false, some ("Invalid IP address: ".data ++ peer)⟩ := by
    rcases hraw with h1 | h1
    · unfold handle_client_connection
      rw [h1]
      simp [hopen]
    · unfold handle_client_connection
      rw [h1]
      rw [if_neg (by decide), if_neg (by simp [show ("OPEN ".data.isPrefixOf
        "MEOPEN".data) = false from rfl]), if_pos rfl]
      simp [hclose]
  exact ⟨hmain, by simp [loopBody, hmain]⟩

/-- C10 witness: an IPv6 peer `::1` sending `OPEN ME` against the default
two-entry port list. -/
theorem C10_witness :
    handle_client_connection false [⟨80, "tcp".data⟩, ⟨443, "tcp".data⟩]
        "::1".data "OPEN ME".data =
      ⟨[], [], false, some ("Invalid IP address: ".data ++ "::1".data)⟩ ∧
    loopBody false [⟨80, "tcp".data⟩, ⟨443, "tcp".data⟩]
        (.accepted "::1".data "OPEN ME".data) =
      .ok ⟨some (handle_client_connection false [⟨80, "tcp".data⟩, ⟨443, "tcp".data⟩]
        "::1".data "OPEN ME".data), true⟩ :=
  C10_caller_address_unvalidated false ⟨80, "tcp".data⟩ [⟨443, "tcp".data⟩]
    "::1".data "OPEN ME".data (by decide) (Or.inl (by decide))

/-- C6.  A payload that is `OPEN <addr>` or `MEOPEN <addr>` with a
validator-rejected address, or that matches none of the four command forms,
triggers zero rule applications, gets the single response `KO`, and the
connection is closed. -/
theorem C6_rejected_payload_no_effects (dbg : Bool) (ports : List PortInfo)
    (peer raw : List Char) (h : rejectedPayload (pyStrip raw) = true) :
    handle_client_connection dbg ports peer raw = ⟨["KO".data], [], true, none⟩ := by
  unfold rejectedPayload parseCommand at h
  unfold handle_client_connection
  by_cases h1 : pyStrip raw = "OPEN ME".data
  · simp [h1] at h
  · by_cases h2 : ("OPEN ".data.isPrefixOf (pyStrip raw)) = true
    · simp [h1, h2] at h
      simp [h1, h2, h]
    · by_cases h4 : pyStrip raw = "MEOPEN".data
      · simp [h1, h2, h4] at h
      · by_cases h5 : ("MEOPEN ".data.isPrefixOf (pyStrip raw)) = true
        · simp [h1, h2, h4, h5] at h
          simp [h1, h2, h4, h5, h]
        · simp [h1, h2, h4, h5]

/-- C6 witness: the unknown command `PING`. -/
theorem C6_witness :
    handle_client_connection false [⟨80, "tcp".data⟩, ⟨443, "tcp".data⟩]
        "10.9.9.9".data "PING".data = ⟨["KO".data], [], true, none⟩ :=
  C6_rejected_payload_no_effects false [⟨80, "tcp".data⟩, ⟨443, "tcp".data⟩]
    "10.9.9.9".data "PING".data (by decide)

/-- C1 (amended).  The handler answers `OK` iff the payload parses as one of
the four command forms (with a validator-accepted address where one is
given) and no exception escapes while building the rule commands, and `KO`
iff the payload is rejected; the exit statuses of the rule applications are
never consulted, so they cannot influence the response. -/
theorem C1_response_ignores_rule_outcomes (dbg : Bool) (ports : List PortInfo)
    (peer raw : List Char) :
    ((handle_client_connection dbg ports peer raw).sent = ["OK".data] ↔
      (commandAccepted (pyStrip raw) = true ∧
        (handle_client_connection dbg ports peer raw).exn = none)) ∧
    ((handle_client_connection dbg ports peer raw).sent = ["KO".data] ↔
      commandAccepted (pyStrip raw) = false) := by
  unfold handle_client_connection commandAccepted parseCommand
  by_cases h1 : pyStrip raw = "OPEN ME".data
  · rcases ho : (open_ports dbg peer ports).2 with _ | e <;> simp [h1, ho]
  · by_cases h2 : ("OPEN ".data.isPrefixOf (pyStrip raw)) = true
    · by_cases h3 : ipMatch (pyStrip ((pyStrip raw).drop 5)) = true
      · rcases ho : (open_ports dbg (pyStrip ((pyStrip raw).drop 5)) ports).2 with _ | e <;>
          simp [h1, h2, h3, ho]
      · simp only [Bool.not_eq_true] at h3
        simp [h1, h2, h3]
    · by_cases h4 : pyStrip raw = "MEOPEN".data
      · rcases ho : (close_ports dbg peer ports).2 with _ | e <;> simp [h1, h2, h4, ho]
      · by_cases h5 : ("MEOPEN ".data.isPrefixOf (pyStrip raw)) = true
        · by_cases h6 : ipMatch (pyStrip ((pyStrip raw).drop 7)) = true
          · rcases ho : (close_ports dbg (pyStrip ((pyStrip raw).drop 7)) ports).2 with _ | e <;>
              simp [h1, h2, h4, h5, h6, ho]
          · simp only [Bool.not_eq_true] at h6
            simp [h1, h2, h4, h5, h6]
        · simp [h1, h2, h4, h5]

/-- C1 counterexample: the external tool exits 1 on the only rule
application (so the aggregate is a failure), yet the handler answers `OK`,
not `KO`. -/
theorem C1_ok_despite_rule_failure :
    (handle_client_connection false [⟨80, "tcp".data⟩] "10.9.9.9".data
        "OPEN 10.0.0.5".data).sent = ["OK".data] ∧
    ruleOutcomesOK (fun _ => 1)
      (handle_client_connection false [⟨80, "tcp".data⟩] "10.9.9.9".data
        "OPEN 10.0.0.5".data).effects = false := by decide

/-- C2 (amended).  With three configured entries, the daemon issues the rule
change for every entry whatever the external tool's exit statuses (which it
never reads), so a failure on entry 2 cannot stop entries 1 and 3; but no
aggregate result is computed — the loop reports no error, and the operation
is reported as a success. -/
theorem C2_partial_application (dbg : Bool) (ip : List Char) (p₁ p₂ p₃ : PortInfo)
    (hip : ipMatch ip = true) (h1 : entryValid p₁) (h2 : entryValid p₂)
    (h3 : entryValid p₃) :
    open_ports dbg ip [p₁, p₂, p₃] =
      ([applyEffect dbg (addRuleCmd ip p₁), applyEffect dbg (addRuleCmd ip p₂),
        applyEffect dbg (addRuleCmd ip p₃)], none) := by
  have hv : ∀ q ∈ [p₁, p₂, p₃], entryValid q := by
    intro q hq
    simp only [List.mem_cons, List.not_mem_nil, or_false] at hq
    rcases hq with rfl | rfl | rfl <;> assumption
  exact open_ports_trace hip hv

/-- C2 witness: the three-entry list `[80/tcp, 443/tcp, 8080/udp]`. -/
theorem C2_partial_application_witness :
    open_ports false "10.0.0.5".data
        [⟨80, "tcp".data⟩, ⟨443, "tcp".data⟩, ⟨8080, "udp".data⟩] =
      ([Effect.ran (addRuleCmd "10.0.0.5".data ⟨80, "tcp".data⟩),
        Effect.ran (addRuleCmd "10.0.0.5".data ⟨443, "tcp".data⟩),
        Effect.ran (addRuleCmd "10.0.0.5".data ⟨8080, "udp".data⟩)], none) :=
  C2_partial_application false "10.0.0.5".data ⟨80, "tcp".data⟩ ⟨443, "tcp".data⟩
    ⟨8080, "udp".data⟩ (by decide) (by decide) (by decide) (by decide)

/-- C2 counterexample: the external tool fails exactly on entry 2's command;
entries 1 and 3 are still applied (as the claim says), but the aggregate
result is not a failure — the handler reports `OK`. -/
theorem C2_no_aggregate_failure :
    (handle_client_connection false
        [⟨80, "tcp".data⟩, ⟨443, "tcp".data⟩, ⟨8080, "udp".data⟩]
        "10.9.9.9".data "OPEN 10.0.0.5".data).effects =
      [Effect.ran "iptables -A openme -p tcp --dport 80 -s 10.0.0.5 -j ACCEPT".data,
       Effect.ran "iptables -A openme -p tcp --dport 443 -s 10.0.0.5 -j ACCEPT".data,
       Effect.ran "iptables -A openme -p udp --dport 8080 -s 10.0.0.5 -j ACCEPT".data] ∧
    ruleOutcomesOK
      (fun cmd =>
        if cmd = "iptables -A openme -p tcp --dport 443 -s 10.0.0.5 -j ACCEPT".data
        then 1 else 0)
      (handle_client_connection false
        [⟨80, "tcp".data⟩, ⟨443, "tcp".data⟩, ⟨8080, "udp".data⟩]
        "10.9.9.9".data "OPEN 10.0.0.5".data).effects = false ∧
    (handle_client_connection false
        [⟨80, "tcp".data⟩, ⟨443, "tcp".data⟩, ⟨8080, "udp".data⟩]
        "10.9.9.9".data "OPEN 10.0.0.5".data).sent = ["OK".data] := by decide

/-- C3.  `OPEN <addr>` with a validator-accepted address issues exactly one
add-direction rule application per configured entry — each targeting that
address with the entry's port and protocol — and the response is `OK` when
all of them succeed (indeed, unconditionally). -/
theorem C3_open_address_dispatch (ports : List PortInfo) (peer raw addr : List Char)
    (hv : ∀ p ∈ ports, entryValid p) (hip : ipMatch addr = true)
    (hstrip : pyStrip raw = "OPEN ".data ++ addr) (haddr : pyStrip addr = addr) :
    handle_client_connection false ports peer raw =
      ⟨["OK".data], ports.map fun p => Effect.ran (addRuleCmd addr p), true, none⟩ := by
  have h := handle_open_addr false ports peer raw addr hv hip hstrip haddr
  simpa [applyEffect] using h

/-- C3 witness: `OPEN 10.0.0.5` against the default `[80/tcp, 443/tcp]`. -/
theorem C3_witness :
    handle_client_connection false [⟨80, "tcp".data⟩, ⟨443, "tcp".data⟩]
        "10.9.9.9".data "OPEN 10.0.0.5".data =
      ⟨["OK".data],
       [Effect.ran (addRuleCmd "10.0.0.5".data ⟨80, "tcp".data⟩),
        Effect.ran (addRuleCmd "10.0.0.5".data ⟨443, "tcp".data⟩)], true, none⟩ :=
  C3_open_address_dispatch [⟨80, "tcp".data⟩, ⟨443, "tcp".data⟩] "10.9.9.9".data
    "OPEN 10.0.0.5".data "10.0.0.5".data (by decide) (by decide) (by decide) (by decide)

/-- C4 (amended).  For a valid address, valid port, direction in
`{add, remove}` and a protocol that is *exactly* lowercase `"tcp"` or
`"udp"`, the builder returns the fully-specified invocation for that
(address, port, protocol) tuple and never an error; other validator-accepted
spellings such as `"TCP"` are not in this set (see the counterexample). -/
theorem C4_builder_lowercase_protocols (ip : List Char) (port : Int)
    (proto act : List Char) (hip : ipMatch ip = true)
    (hp : is_valid_port_number port = true)
    (hproto : proto = "tcp".data ∨ proto = "udp".data)
    (hact : act = "add".data ∨ act = "remove".data) :
    generate_iptables_command ip port proto act =
      .ok (if act = "add".data then addRuleCmd ip ⟨port, proto⟩
           else removeRuleCmd ip ⟨port, proto⟩) := by
  rcases hact with rfl | rfl
  · rw [if_pos rfl]
    exact generate_ok_add hip hp hproto
  · rw [if_neg (by decide)]
    exact generate_ok_remove hip hp hproto

/-- C4 witness: `(10.0.0.5, 80, tcp, add)`. -/
theorem C4_witness :
    generate_iptables_command "10.0.0.5".data 80 "tcp".data "add".data =
      .ok (addRuleCmd "10.0.0.5".data ⟨80, "tcp".data⟩) := by
  have h := C4_builder_lowercase_protocols "10.0.0.5".data 80 "tcp".data "add".data
    (by decide) (by decide) (Or.inl rfl) (Or.inl rfl)
  simpa using h

/-- C4 counterexample: `"TCP"` is accepted by the case-insensitive protocol
validator, yet the builder's case-sensitive membership test rejects it and
returns the error message string instead of a rule invocation. -/
theorem C4_uppercase_protocol_rejected :
    is_valid_protocol "TCP".data = true ∧
    generate_iptables_command "10.0.0.5".data 80 "TCP".data "add".data =
      .ok "Invalid protocol. Supported protocols are tcp and udp.".data := by decide

/-- C5 (amended).  For every semantics of the regex classes `\d` and `\w`
satisfying the facts true of Python's Unicode classes — every ASCII digit is
a `\d` digit, `\d` digits are word characters, `'.'` and newline are not
word characters — the validator accepts exactly the strings of four
dot-separated octets, an octet being a single `\d` digit or one of the
literal-prefixed forms `[1-9]\d`, `1\d\d`, `2[0-4]\d`, `25[0-5]`,
optionally followed by a single trailing newline.  On all-ASCII strings the
octets are exactly the decimal numbers 0–255 with no leading zero, as the
claim says; but Python's `\d` is Unicode-wide, so single non-ASCII decimal
digits also form octets (e.g. Arabic-Indic dotted quads are accepted), and
the trailing newline refutes the no-trailing-whitespace part. -/
theorem C5_validator_characterization (dig w : Char → Bool)
    (h : admissibleClasses dig w) (s : String) :
    is_valid_ip4_address dig w s = specIPv4OptNl dig s :=
  reIPv4_eq_specQuad h s.data

/-- C5 witness: the ASCII class fragments are admissible, and at them the
characterization evaluates on `"192.168.1.1"` to `true` on both sides. -/
theorem C5_witness :
    (is_valid_ip4_address asciiDigit asciiWord "192.168.1.1" =
      specIPv4OptNl asciiDigit "192.168.1.1") ∧
    is_valid_ip4_address asciiDigit asciiWord "192.168.1.1" = true :=
  ⟨C5_validator_characterization asciiDigit asciiWord ascii_classes_admissible
    "192.168.1.1", by decide⟩

/-- C5 counterexample: `"192.168.1.1\n"` has trailing whitespace, which the
claim says must be rejected, but the validator accepts it (Python's `$`
matches just before one final newline).  The input is all-ASCII, so the
ASCII instantiation decides it; `newline_accepted_for_any_classes` below
shows every admissible instantiation — Python's Unicode classes included —
accepts it as well. -/
theorem C5_trailing_newline_accepted :
    is_valid_ip4_address asciiDigit asciiWord "192.168.1.1\n" = true ∧
      specStrictIPv4 "192.168.1.1\n" = false := by decide

/-- Under every admissible class semantics — in particular Python's Unicode
`\d`/`\w` — the validator accepts `"192.168.1.1\n"`: the accepting trace
only needs the forced facts about ASCII digits, `'.'` and newline. -/
theorem newline_accepted_for_any_classes (dig w : Char → Bool)
    (h : admissibleClasses dig w) :
    is_valid_ip4_address dig w "192.168.1.1\n" = true := by
  have hq := reIPv4_eq_specQuad h "192.168.1.1\n".data
  obtain ⟨hdig, hsub, hdot, hnl⟩ := h
  have d1 : dig '1' = true := hdig _ (by decide)
  have d2 : dig '2' = true := hdig _ (by decide)
  have d6 : dig '6' = true := hdig _ (by decide)
  have d8 : dig '8' = true := hdig _ (by decide)
  have d9 : dig '9' = true := hdig _ (by decide)
  have ddot : dig '.' = false := dig_dot_false hsub hdot
  have dnl : dig '\n' = false := dig_nl_false hsub hnl
  have hdata : "192.168.1.1\n".data =
      ['1', '9', '2', '.', '1', '6', '8', '.', '1', '.', '1', '\n'] := rfl
  rw [show is_valid_ip4_address dig w "192.168.1.1\n" =
    reIPv4Match dig w "192.168.1.1\n".data from rfl, hq, hdata]
  simp [specQuadAux, List.takeWhile_cons, List.dropWhile_cons, d1, d2, d6, d8, d9,
    ddot, dnl, specOctetStr, endAnchor]

/-- The concrete cases from the specification all behave as stated, at the
ASCII instantiation (all the inputs are ASCII). -/
theorem ipv4_concrete_cases :
    is_valid_ip4_address asciiDigit asciiWord "192.168.1.1" = true ∧
    is_valid_ip4_address asciiDigit asciiWord "255.255.255.255" = true ∧
    is_valid_ip4_address asciiDigit asciiWord "256.1.1.1" = false ∧
    is_valid_ip4_address asciiDigit asciiWord "192.168.1.01" = false ∧
    is_valid_ip4_address asciiDigit asciiWord "192..168.1.1" = false ∧
    is_valid_ip4_address asciiDigit asciiWord "%192.168.1.1" = false := by decide

/-- C7.  With `DEBUG` true (DryRun), opening or closing ports performs no
subprocess invocation: every built command is only logged, the loops raise
nothing, and the client is answered `OK`. -/
theorem C7_debug_dry_run (ip : List Char) (ports : List PortInfo)
    (peer raw : List Char) (hip : ipMatch ip = true)
    (hv : ∀ p ∈ ports, entryValid p)
    (hstrip : pyStrip raw = "OPEN ".data ++ ip) (hi : pyStrip ip = ip) :
    open_ports true ip ports =
      (ports.map fun p => Effect.logged (addRuleCmd ip p), none) ∧
    close_ports true ip ports =
      (ports.map fun p => Effect.logged (removeRuleCmd ip p), none) ∧
    (∀ e ∈ (open_ports true ip ports).1, invokesSubprocess e = false) ∧
    (∀ e ∈ (close_ports true ip ports).1, invokesSubprocess e = false) ∧
    handle_client_connection true ports peer raw =
      ⟨["OK".data], ports.map fun p => Effect.logged (addRuleCmd ip p), true, none⟩ := by
  refine ⟨?_, ?_, ?_, ?_, ?_⟩
  · simpa [applyEffect] using open_ports_trace hip hv
  · simpa [applyEffect] using close_ports_trace hip hv
  · intro e he
    rw [open_ports_trace hip hv] at he
    simp only [List.mem_map] at he
    obtain ⟨p, -, rfl⟩ := he
    rfl
  · intro e he
    rw [close_ports_trace hip hv] at he
    simp only [List.mem_map] at he
    obtain ⟨p, -, rfl⟩ := he
    rfl
  · simpa [applyEffect] using handle_open_addr true ports peer raw ip hv hip hstrip hi

/-- C7 witness: `OPEN 10.0.0.5` in DEBUG mode against `[80/tcp, 443/tcp]`:
both commands are only logged and the response is `OK`. -/
theorem C7_witness :
    handle_client_connection true [⟨80, "tcp".data⟩, ⟨443, "tcp".data⟩]
        "10.9.9.9".data "OPEN 10.0.0.5".data =
      ⟨["OK".data],
       [Effect.logged (addRuleCmd "10.0.0.5".data ⟨80, "tcp".data⟩),
        Effect.logged (addRuleCmd "10.0.0.5".data ⟨443, "tcp".data⟩)], true, none⟩ :=
  (C7_debug_dry_run "10.0.0.5".data [⟨80, "tcp".data⟩, ⟨443, "tcp".data⟩]
    "10.9.9.9".data "OPEN 10.0.0.5".data (by decide) (by decide) (by decide)
    (by decide)).2.2.2.2

/-!
## Configuration validation (C8)
-/

theorem bindCheck_eq (c : PyConfig) :
    bindAddressCheck c =
      (if bindAddressBad c then some ConfigError.invalidBindAddress else none) := by
  unfold bindAddressCheck bindAddressBad
  rcases c.BIND_ADDRESS with _ | a
  · rfl
  · by_cases h : ipMatch a = true
    · simp [h]
    · simp only [Bool.not_eq_true] at h
      simp [h]

theorem listenCheck_eq (c : PyConfig) :
    listeningPortCheck c =
      (if listeningPortBad c then some ConfigError.invalidListeningPort else none) := by
  unfold listeningPortCheck listeningPortBad
  rcases c.LISTENING_PORT with _ | p
  · rfl
  · by_cases h : is_valid_port_number p = true
    · simp [h]
    · simp only [Bool.not_eq_true] at h
      simp [h]

theorem portsCheck_eq (c : PyConfig) :
    portsCheck c = (match portsResult c with
                    | .error e => some e
                    | .ok _ => none) := by
  unfold portsCheck portsResult
  rcases c.PORTS with _ | ps <;> rfl

theorem certCheck_eq (env : FsEnv) (c : PyConfig) :
    certFileCheck env c = (match certResult env c with
                           | .error e => some e
                           | .ok _ => none) := by
  unfold certFileCheck certResult
  rcases c.CERT_FILE with _ | f <;> rfl

theorem keyCheck_eq (env : FsEnv) (c : PyConfig) :
    keyFileCheck env c = (match keyResult env c with
                          | .error e => some e
                          | .ok _ => none) := by
  unfold keyFileCheck keyResult
  rcases c.KEY_FILE with _ | f <;> rfl

theorem caCheck_eq (env : FsEnv) (c : PyConfig) :
    caCertFileCheck env c = (match caCertResult env c with
                             | .error e => some e
                             | .ok _ => none) := by
  unfold caCertFileCheck caCertResult
  rcases c.CA_CERT_FILE with _ | f <;> rfl

/-- C8.  `validate_config` runs its checks in the order bind address,
listening port, every ports entry, cert file, key file, CA cert file, and
raises exactly the first failing check's error (fail-fast, not collect-all);
in particular a `LISTENING_PORT` of 70000, or a `CERT_FILE` naming a
non-existent path, makes startup exit before the listener binds. -/
theorem C8_config_validation_fail_fast :
    (∀ env c, validate_config env c =
        ofFirstFailure (firstFailure (configChecks env c))) ∧
    (∀ env c, c.LISTENING_PORT = some 70000 →
        mainStartup env c = .exitedWithError) ∧
    (∀ env c f, c.CERT_FILE = some f → env.pathExists f = false →
        mainStartup env c = .exitedWithError) := by
  have href : ∀ env c, validate_config env c =
      ofFirstFailure (firstFailure (configChecks env c)) := by
    intro env c
    unfold validate_config configChecks
    by_cases hb : bindAddressBad c = true
    · simp [hb, bindCheck_eq, firstFailure, ofFirstFailure]
    · simp only [Bool.not_eq_true] at hb
      by_cases hl : listeningPortBad c = true
      · simp [hb, hl, bindCheck_eq, listenCheck_eq, firstFailure, ofFirstFailure]
      · simp only [Bool.not_eq_true] at hl
        rcases hp : portsResult c with e | b
        · simp [hb, hl, hp, bindCheck_eq, listenCheck_eq, portsCheck_eq,
            firstFailure, ofFirstFailure]
        · rcases hc : certResult env c with e | b2
          · simp [hb, hl, hp, hc, bindCheck_eq, listenCheck_eq, portsCheck_eq,
              certCheck_eq, firstFailure, ofFirstFailure]
          · rcases hk : keyResult env c with e | b3
            · simp [hb, hl, hp, hc, hk, bindCheck_eq, listenCheck_eq, portsCheck_eq,
                certCheck_eq, keyCheck_eq, firstFailure, ofFirstFailure]
            · rcases hca : caCertResult env c with e | b4
              · simp [hb, hl, hp, hc, hk, hca, bindCheck_eq, listenCheck_eq,
                  portsCheck_eq, certCheck_eq, keyCheck_eq, caCheck_eq,
                  firstFailure, ofFirstFailure]
              · simp [hb, hl, hp, hc, hk, hca, bindCheck_eq, listenCheck_eq,
                  portsCheck_eq, certCheck_eq, keyCheck_eq, caCheck_eq,
                  firstFailure, ofFirstFailure]
  refine ⟨href, ?_, ?_⟩
  · intro env c h70
    unfold mainStartup validate_config
    by_cases hb : bindAddressBad c = true
    · simp [hb]
    · simp only [Bool.not_eq_true] at hb
      have hl : listeningPortBad c = true := by
        unfold listeningPortBad
        rw [h70]
        decide
      simp [hb, hl]
  · intro env c f hcf hex
    unfold mainStartup validate_config
    by_cases hb : bindAddressBad c = true
    · simp [hb]
    · simp only [Bool.not_eq_true] at hb
      by_cases hl : listeningPortBad c = true
      · simp [hb, hl]
      · simp only [Bool.not_eq_true] at hl
        rcases hp : portsResult c with e | b
        · simp [hb, hl, hp]
        · have hc : certResult env c = .error (.invalidCertificate f) := by
            unfold certResult
            rw [hcf]
            unfold validate_cert_file
            simp [hex]
          simp [hb, hl, hp, hc]

/-- C8 witness: a config with `LISTENING_PORT = 70000`, and a config whose
`CERT_FILE` does not exist on disk, are both rejected before listening. -/
theorem C8_witness :
    mainStartup ⟨fun _ => true, fun _ => true, fun _ => true⟩
      ⟨some "0.0.0.0".data, some 70000, some [⟨80, "tcp".data⟩],
       some "server.crt".data, some "server.key".data, some "ca.crt".data⟩ =
      .exitedWithError ∧
    mainStartup ⟨fun _ => false, fun _ => true, fun _ => true⟩
      ⟨some "0.0.0.0".data, some 54154, some [⟨80, "tcp".data⟩],
       some "server.crt".data, some "server.key".data, some "ca.crt".data⟩ =
      .exitedWithError :=
  ⟨C8_config_validation_fail_fast.2.1 _ _ rfl,
   C8_config_validation_fail_fast.2.2 _ _ "server.crt".data rfl rfl⟩

end Openme
